import Mathlib

/-!
Verification of the procedural DNA-helix geometry generator
(`src/components/three/DNAHelix.tsx`).

The component's math is a pure parametric generator: for each strand a
list of control points on a helix (Curve Builder), instance transforms
for the base-pair rungs and the per-strand junction spheres (Instance
Placer), and a per-frame rotation/bob update. Each definition below is a
direct translation of the corresponding TypeScript; real arithmetic
stands in for IEEE doubles.
-/

open Real

namespace DNAHelix

/-- A 3D vector, mirroring `THREE.Vector3` as used by the component
(only construction and component access occur in the source). -/
@[ext]
structure Vec3 where
  x : ℝ
  y : ℝ
  z : ℝ

/-- `const BASE_PAIR_COUNT = 20` -/
def BASE_PAIR_COUNT : ℕ := 20

/-- `const VERTICAL_STEP = 0.45` -/
noncomputable def VERTICAL_STEP : ℝ := 0.45

/-- `const HELIX_RADIUS = 1.2` -/
noncomputable def HELIX_RADIUS : ℝ := 1.2

/-- `const TWIST_PER_STEP = (2 * Math.PI) / 10` -/
noncomputable def TWIST_PER_STEP : ℝ := (2 * π) / 10

/-- The curve type string passed to `CatmullRomCurve3`. -/
inductive CurveKind where
  | catmullrom
  | centripetal
  | chordal
  deriving DecidableEq, Repr

/-- Mirrors `THREE.CatmullRomCurve3(points, closed, curveType, tension)`
as constructed by the component: the control points plus the spline
fitting parameters. -/
structure CatmullRomCurve3 where
  points : List Vec3
  closed : Bool
  curveType : CurveKind
  tension : ℝ

/-- Body of the point loop in `buildBackboneCurve`: the control point at
quarter-step index `i` for a given phase offset.

```ts
const t = i / 4
const angle = t * TWIST_PER_STEP + phaseOffset
const y = t * VERTICAL_STEP - (BASE_PAIR_COUNT * VERTICAL_STEP) / 2
new THREE.Vector3(Math.cos(angle) * HELIX_RADIUS, y, Math.sin(angle) * HELIX_RADIUS)
``` -/
noncomputable def backbonePoint (phaseOffset : ℝ) (i : ℕ) : Vec3 :=
  let t : ℝ := (i : ℝ) / 4
  let angle : ℝ := t * TWIST_PER_STEP + phaseOffset
  let y : ℝ := t * VERTICAL_STEP - ((BASE_PAIR_COUNT : ℝ) * VERTICAL_STEP) / 2
  ⟨Real.cos angle * HELIX_RADIUS, y, Real.sin angle * HELIX_RADIUS⟩

/-- `buildBackboneCurve(phaseOffset)`: pushes the points for
`i = 0 .. BASE_PAIR_COUNT * 4` inclusive, then wraps them in an open
catmull-rom curve with tension `0.5`. -/
noncomputable def buildBackboneCurve (phaseOffset : ℝ) : CatmullRomCurve3 :=
  let totalSteps := BASE_PAIR_COUNT * 4
  { points := (List.range (totalSteps + 1)).map (backbonePoint phaseOffset)
    closed := false
    curveType := CurveKind.catmullrom
    tension := 0.5 }

/-- One rung instance, recording exactly what `BasePairRungs` sets on the
throwaway `Object3D` before reading its matrix: the translation, the
`lookAt` target, the post-look-at local X rotation, and the scale. -/
structure RungInstance where
  position : Vec3
  lookAtTarget : Vec3
  rotateXAfterLookAt : ℝ
  scale : Vec3

/-- Body of the rung loop in `BasePairRungs` for base-pair index `i`:

```ts
const angle = i * TWIST_PER_STEP
const y = i * VERTICAL_STEP - (BASE_PAIR_COUNT * VERTICAL_STEP) / 2
const ax = Math.cos(angle) * HELIX_RADIUS
const az = Math.sin(angle) * HELIX_RADIUS
const bx = Math.cos(angle + Math.PI) * HELIX_RADIUS
const bz = Math.sin(angle + Math.PI) * HELIX_RADIUS
const cx = (ax + bx) / 2
const cz = (az + bz) / 2
const length = HELIX_RADIUS * 2
dummy.position.set(cx, y, cz)
dummy.lookAt(bx, y, bz)
dummy.rotateX(Math.PI / 2)
dummy.scale.set(1, length / 2, 1)
``` -/
noncomputable def rungTransform (i : ℕ) : RungInstance :=
  let angle : ℝ := (i : ℝ) * TWIST_PER_STEP
  let y : ℝ := (i : ℝ) * VERTICAL_STEP - ((BASE_PAIR_COUNT : ℝ) * VERTICAL_STEP) / 2
  let ax : ℝ := Real.cos angle * HELIX_RADIUS
  let az : ℝ := Real.sin angle * HELIX_RADIUS
  let bx : ℝ := Real.cos (angle + π) * HELIX_RADIUS
  let bz : ℝ := Real.sin (angle + π) * HELIX_RADIUS
  let cx : ℝ := (ax + bx) / 2
  let cz : ℝ := (az + bz) / 2
  let length : ℝ := HELIX_RADIUS * 2
  { position := ⟨cx, y, cz⟩
    lookAtTarget := ⟨bx, y, bz⟩
    rotateXAfterLookAt := π / 2
    scale := ⟨1, length / 2, 1⟩ }

/-- The full rung matrix list: the loop runs `i = 0 .. BASE_PAIR_COUNT - 1`. -/
noncomputable def rungMatrices : List RungInstance :=
  (List.range BASE_PAIR_COUNT).map rungTransform

/-- Height argument of the shared rung prototype,
`<cylinderGeometry args={[0.03, 0.03, 2, 6]} />`. -/
noncomputable def RUNG_CYLINDER_HEIGHT : ℝ := 2

/-- World-space length of rung `i`: the prototype cylinder's height
scaled by the instance's long-axis (local Y) scale factor. -/
noncomputable def rungLength (i : ℕ) : ℝ :=
  RUNG_CYLINDER_HEIGHT * (rungTransform i).scale.y

/-- One junction-node instance. `BackboneNodes` sets only the position
and a uniform scale on the dummy `Object3D`; the rotation stays at the
`Object3D` default, Euler angles `(0, 0, 0)` (the identity rotation),
which we record explicitly. -/
structure NodeInstance where
  position : Vec3
  rotationEuler : Vec3
  scale : Vec3

/-- Body of the junction-node loop in `BackboneNodes` for index `i`:

```ts
const angle = i * TWIST_PER_STEP + phaseOffset
const y = i * VERTICAL_STEP - (BASE_PAIR_COUNT * VERTICAL_STEP) / 2
dummy.position.set(Math.cos(angle) * HELIX_RADIUS, y, Math.sin(angle) * HELIX_RADIUS)
dummy.scale.setScalar(1)
``` -/
noncomputable def nodeTransform (phaseOffset : ℝ) (i : ℕ) : NodeInstance :=
  let angle : ℝ := (i : ℝ) * TWIST_PER_STEP + phaseOffset
  let y : ℝ := (i : ℝ) * VERTICAL_STEP - ((BASE_PAIR_COUNT : ℝ) * VERTICAL_STEP) / 2
  { position := ⟨Real.cos angle * HELIX_RADIUS, y, Real.sin angle * HELIX_RADIUS⟩
    rotationEuler := ⟨0, 0, 0⟩
    scale := ⟨1, 1, 1⟩ }

/-- The per-strand junction-node matrix list: `i = 0 .. BASE_PAIR_COUNT - 1`. -/
noncomputable def nodeMatrices (phaseOffset : ℝ) : List NodeInstance :=
  (List.range BASE_PAIR_COUNT).map (nodeTransform phaseOffset)

/-- The state mutated by the `useFrame` callback of `DNAHelix`: the
group's Y rotation and Y position are the only fields it touches. -/
structure FrameState where
  rotationY : ℝ
  positionY : ℝ

/-- The `useFrame` callback as a function of elapsed time `t` (seconds):

```ts
groupRef.current.rotation.y = t * 0.15
groupRef.current.position.y = Math.sin(t * 0.5) * 0.15
``` -/
noncomputable def frameUpdate (t : ℝ) : FrameState :=
  { rotationY := t * 0.15
    positionY := Real.sin (t * 0.5) * 0.15 }

/-- Phase offset of backbone strand A in `DNAHelix` (`phaseOffset={0}`). -/
noncomputable def STRAND_A_PHASE : ℝ := 0

/-- Phase offset of backbone strand B in `DNAHelix` (`phaseOffset={Math.PI}`). -/
noncomputable def STRAND_B_PHASE : ℝ := π

/-- Midpoint of two points (spec-side notion used by the rung claims). -/
noncomputable def midpoint3 (a b : Vec3) : Vec3 :=
  ⟨(a.x + b.x) / 2, (a.y + b.y) / 2, (a.z + b.z) / 2⟩

/-! ## Spec-side formulas

To state the refinement claims, the spec's own formulas are written out
as separate definitions (named `spec...`) and compared with the
source-derived definitions above. -/

/-- Spec-side: the vertical level of base pair `i`,
`y = i * verticalStep - (N * verticalStep) / 2`. -/
noncomputable def specLevelY (i : ℕ) : ℝ :=
  (i : ℝ) * VERTICAL_STEP - ((BASE_PAIR_COUNT : ℝ) * VERTICAL_STEP) / 2

/-- Spec-side: a backbone point at a given angle and base-pair level `i`,
at distance `radius` from the axis:
`(radius * cos(angle), y(i), radius * sin(angle))`. -/
noncomputable def specBackboneAtLevel (angle : ℝ) (i : ℕ) : Vec3 :=
  ⟨HELIX_RADIUS * Real.cos angle, specLevelY i, HELIX_RADIUS * Real.sin angle⟩

/-- Spec-side: the Curve Builder control-point formula as the spec
states it, at quarter-step index `i`:
`angle = (i/4) * twistPerStep + phaseOffset`,
`y = (i/4) * verticalStep - (N * verticalStep) / 2`,
`x = radius * cos(angle)`, `z = radius * sin(angle)`. -/
noncomputable def specCurvePoint (phaseOffset : ℝ) (i : ℕ) : Vec3 :=
  ⟨HELIX_RADIUS * Real.cos (((i : ℝ) / 4) * TWIST_PER_STEP + phaseOffset),
   ((i : ℝ) / 4) * VERTICAL_STEP - ((BASE_PAIR_COUNT : ℝ) * VERTICAL_STEP) / 2,
   HELIX_RADIUS * Real.sin (((i : ℝ) / 4) * TWIST_PER_STEP + phaseOffset)⟩

/-! ## Shared indexing lemmas -/

lemma buildBackboneCurve_points_getElem (phaseOffset : ℝ) (i : ℕ) (h : i < 81) :
    (buildBackboneCurve phaseOffset).points[i]? = some (backbonePoint phaseOffset i) := by
  simp only [buildBackboneCurve, BASE_PAIR_COUNT, List.getElem?_map]
  rw [List.getElem?_range h]
  rfl

lemma rungMatrices_getElem (i : ℕ) (h : i < 20) :
    rungMatrices[i]? = some (rungTransform i) := by
  simp only [rungMatrices, BASE_PAIR_COUNT, List.getElem?_map]
  rw [List.getElem?_range h]
  rfl

lemma nodeMatrices_getElem (phaseOffset : ℝ) (i : ℕ) (h : i < 20) :
    (nodeMatrices phaseOffset)[i]? = some (nodeTransform phaseOffset i) := by
  simp only [nodeMatrices, BASE_PAIR_COUNT, List.getElem?_map]
  rw [List.getElem?_range h]
  rfl

/-! ## Claims -/

/-- **C2.** For every phase offset and every index `i ≤ 4 * N` (N = 20),
the `i`-th control point of the Curve Builder lies at
`angle = (i/4) * twistPerStep + phaseOffset`,
`y = (i/4) * verticalStep - (N * verticalStep) / 2`,
`x = radius * cos(angle)`, `z = radius * sin(angle)`, and the fitted
curve is open (non-looping) with tension `0.5` (curve type
`catmullrom`). -/
theorem curve_builder_point_formula (phaseOffset : ℝ) (i : ℕ) (h : i < 4 * 20 + 1) :
    (buildBackboneCurve phaseOffset).points[i]? = some (specCurvePoint phaseOffset i) ∧
    (buildBackboneCurve phaseOffset).closed = false ∧
    (buildBackboneCurve phaseOffset).curveType = CurveKind.catmullrom ∧
    (buildBackboneCurve phaseOffset).tension = 0.5 := by
  refine ⟨?_, rfl, rfl, rfl⟩
  rw [buildBackboneCurve_points_getElem phaseOffset i (by omega)]
  congr 1
  simp only [backbonePoint, specCurvePoint]
  ext
  · exact mul_comm _ _
  · rfl
  · exact mul_comm _ _

/-- Witness for `curve_builder_point_formula` at phase offset `0`,
index `0`. -/
theorem curve_builder_point_formula_witness :
    0 < 4 * 20 + 1 ∧
    ((buildBackboneCurve 0).points[0]? = some (specCurvePoint 0 0) ∧
      (buildBackboneCurve 0).closed = false ∧
      (buildBackboneCurve 0).curveType = CurveKind.catmullrom ∧
      (buildBackboneCurve 0).tension = 0.5) :=
  ⟨by norm_num, curve_builder_point_formula 0 0 (by norm_num)⟩

/-- **C1.** For every base-pair index `i < 20`, the rung instance
transform has its center at the midpoint of the strand-A backbone point
at angle `i * twistPerStep` and the antipodal strand-B point at that
angle plus `π` (both at distance `radius` from the axis, at level
`y = i * verticalStep - (N * verticalStep) / 2`), its long-axis scale is
`length / 2 = radius` with the cross-section scale unchanged at `1`, and
the resulting rung length is `2 * radius`. -/
theorem rung_transform_spec (i : ℕ) (h : i < 20) :
    rungMatrices[i]? = some (rungTransform i) ∧
    (rungTransform i).position =
      midpoint3 (specBackboneAtLevel ((i : ℝ) * TWIST_PER_STEP) i)
        (specBackboneAtLevel ((i : ℝ) * TWIST_PER_STEP + π) i) ∧
    (rungTransform i).scale = ⟨1, HELIX_RADIUS, 1⟩ ∧
    rungLength i = 2 * HELIX_RADIUS := by
  refine ⟨rungMatrices_getElem i h, ?_, ?_, ?_⟩
  · simp only [rungTransform, midpoint3, specBackboneAtLevel, specLevelY]
    ext
    · show (Real.cos _ * HELIX_RADIUS + Real.cos _ * HELIX_RADIUS) / 2 = _
      ring
    · show (i : ℝ) * VERTICAL_STEP - ((BASE_PAIR_COUNT : ℝ) * VERTICAL_STEP) / 2 = _
      ring
    · show (Real.sin _ * HELIX_RADIUS + Real.sin _ * HELIX_RADIUS) / 2 = _
      ring
  · simp only [rungTransform]
    ext
    · rfl
    · show HELIX_RADIUS * 2 / 2 = HELIX_RADIUS
      ring
    · rfl
  · simp only [rungLength, rungTransform, RUNG_CYLINDER_HEIGHT]
    show (2 : ℝ) * (HELIX_RADIUS * 2 / 2) = 2 * HELIX_RADIUS
    ring

/-- Witness for `rung_transform_spec` at index `0`. -/
theorem rung_transform_spec_witness :
    0 < 20 ∧
    (rungMatrices[0]? = some (rungTransform 0) ∧
      (rungTransform 0).position =
        midpoint3 (specBackboneAtLevel (((0 : ℕ) : ℝ) * TWIST_PER_STEP) 0)
          (specBackboneAtLevel (((0 : ℕ) : ℝ) * TWIST_PER_STEP + π) 0) ∧
      (rungTransform 0).scale = ⟨1, HELIX_RADIUS, 1⟩ ∧
      rungLength 0 = 2 * HELIX_RADIUS) :=
  ⟨by norm_num, rung_transform_spec 0 (by norm_num)⟩

/-- **C3.** For every phase offset and every step `i < 20`, the Curve
Builder control point at quarter-step index `4 * i` equals the
junction-node position for the same phase offset and index `i`;
junction-node transforms have uniform scale `1` and identity rotation
(Euler `(0, 0, 0)`). -/
theorem curve_sample_matches_node (phaseOffset : ℝ) (i : ℕ) (h : i < 20) :
    (buildBackboneCurve phaseOffset).points[4 * i]? =
      some (nodeTransform phaseOffset i).position ∧
    (nodeMatrices phaseOffset)[i]? = some (nodeTransform phaseOffset i) ∧
    (nodeTransform phaseOffset i).scale = ⟨1, 1, 1⟩ ∧
    (nodeTransform phaseOffset i).rotationEuler = ⟨0, 0, 0⟩ := by
  refine ⟨?_, nodeMatrices_getElem phaseOffset i h, rfl, rfl⟩
  rw [buildBackboneCurve_points_getElem phaseOffset (4 * i) (by omega)]
  congr 1
  simp only [backbonePoint, nodeTransform]
  have h4 : ((4 * i : ℕ) : ℝ) / 4 = (i : ℝ) := by push_cast; ring
  rw [h4]

/-- Witness for `curve_sample_matches_node` at phase offset `0`,
index `0`. -/
theorem curve_sample_matches_node_witness :
    0 < 20 ∧
    ((buildBackboneCurve 0).points[4 * 0]? = some (nodeTransform 0 0).position ∧
      (nodeMatrices 0)[0]? = some (nodeTransform 0 0) ∧
      (nodeTransform 0 0).scale = ⟨1, 1, 1⟩ ∧
      (nodeTransform 0 0).rotationEuler = ⟨0, 0, 0⟩) :=
  ⟨by norm_num, curve_sample_matches_node 0 0 (by norm_num)⟩

/-- **C4.** At every matching sample index, strand A (phase offset `0`)
and strand B (phase offset `π`) are reflections of each other through
the central Y axis: `A.x = -B.x`, `A.z = -B.z`, `A.y = B.y`. -/
theorem strands_mirror (i : ℕ) (h : i < 4 * 20 + 1) :
    ∃ a b : Vec3,
      (buildBackboneCurve STRAND_A_PHASE).points[i]? = some a ∧
      (buildBackboneCurve STRAND_B_PHASE).points[i]? = some b ∧
      a.x = -b.x ∧ a.z = -b.z ∧ a.y = b.y := by
  refine ⟨backbonePoint STRAND_A_PHASE i, backbonePoint STRAND_B_PHASE i,
    buildBackboneCurve_points_getElem _ i (by omega),
    buildBackboneCurve_points_getElem _ i (by omega), ?_, ?_, rfl⟩
  · show Real.cos _ * HELIX_RADIUS = -(Real.cos _ * HELIX_RADIUS)
    simp only [STRAND_A_PHASE, STRAND_B_PHASE]
    rw [add_zero, Real.cos_add_pi]
    ring
  · show Real.sin _ * HELIX_RADIUS = -(Real.sin _ * HELIX_RADIUS)
    simp only [STRAND_A_PHASE, STRAND_B_PHASE]
    rw [add_zero, Real.sin_add_pi]
    ring

/-- Witness for `strands_mirror` at sample index `0`. -/
theorem strands_mirror_witness :
    0 < 4 * 20 + 1 ∧
    ∃ a b : Vec3,
      (buildBackboneCurve STRAND_A_PHASE).points[0]? = some a ∧
      (buildBackboneCurve STRAND_B_PHASE).points[0]? = some b ∧
      a.x = -b.x ∧ a.z = -b.z ∧ a.y = b.y :=
  ⟨by norm_num, strands_mirror 0 (by norm_num)⟩

/-- **C6.** The number of rung instances equals the number of
junction-node instances per strand, and both equal the base-pair count
`20`; rung `i` and junction `i` of each strand sit at the same vertical
level `y = i * verticalStep - (N * verticalStep) / 2`. -/
theorem counts_and_levels (i : ℕ) (h : i < 20) :
    rungMatrices.length = BASE_PAIR_COUNT ∧
    (∀ phaseOffset : ℝ, (nodeMatrices phaseOffset).length = BASE_PAIR_COUNT) ∧
    BASE_PAIR_COUNT = 20 ∧
    (rungTransform i).position.y = specLevelY i ∧
    (nodeTransform STRAND_A_PHASE i).position.y = specLevelY i ∧
    (nodeTransform STRAND_B_PHASE i).position.y = specLevelY i := by
  refine ⟨by simp [rungMatrices], fun _ => by simp [nodeMatrices], rfl, rfl, rfl, rfl⟩

/-- Witness for `counts_and_levels` at index `0`. -/
theorem counts_and_levels_witness :
    0 < 20 ∧
    (rungMatrices.length = BASE_PAIR_COUNT ∧
      (∀ phaseOffset : ℝ, (nodeMatrices phaseOffset).length = BASE_PAIR_COUNT) ∧
      BASE_PAIR_COUNT = 20 ∧
      (rungTransform 0).position.y = specLevelY 0 ∧
      (nodeTransform STRAND_A_PHASE 0).position.y = specLevelY 0 ∧
      (nodeTransform STRAND_B_PHASE 0).position.y = specLevelY 0) :=
  ⟨by norm_num, counts_and_levels 0 (by norm_num)⟩

/-- **C9.** Every control point generated by the Curve Builder, for any
phase offset, lies at exact distance `radius` from the central Y axis:
`x² + z² = radius²`. -/
theorem points_on_cylinder (phaseOffset : ℝ) (p : Vec3)
    (hp : p ∈ (buildBackboneCurve phaseOffset).points) :
    p.x ^ 2 + p.z ^ 2 = HELIX_RADIUS ^ 2 := by
  simp only [buildBackboneCurve, List.mem_map, List.mem_range] at hp
  obtain ⟨i, _, rfl⟩ := hp
  simp only [backbonePoint]
  linear_combination
    (HELIX_RADIUS ^ 2) *
      Real.sin_sq_add_cos_sq (((i : ℝ) / 4) * TWIST_PER_STEP + phaseOffset)

/-- Witness for `points_on_cylinder`: the first control point of the
phase-`0` curve. -/
theorem points_on_cylinder_witness :
    backbonePoint 0 0 ∈ (buildBackboneCurve 0).points ∧
    (backbonePoint 0 0).x ^ 2 + (backbonePoint 0 0).z ^ 2 = HELIX_RADIUS ^ 2 := by
  have hm : backbonePoint 0 0 ∈ (buildBackboneCurve 0).points := by
    simp only [buildBackboneCurve, List.mem_map, List.mem_range]
    exact ⟨0, by simp [BASE_PAIR_COUNT], rfl⟩
  exact ⟨hm, points_on_cylinder 0 _ hm⟩

/-- **C10.** The `y` coordinates of the Curve Builder's control points
are strictly increasing in the index (each step adds
`verticalStep / 4 > 0`), so the curve never doubles back vertically and
its endpoints are the unique lowest and highest points, at
`y = -(N * verticalStep) / 2` and `y = (N * verticalStep) / 2`. -/
theorem curve_y_strictly_increasing (phaseOffset : ℝ) (i j : ℕ)
    (hij : i < j) (hj : j ≤ 4 * 20) :
    ∃ a b lo hi : Vec3,
      (buildBackboneCurve phaseOffset).points[i]? = some a ∧
      (buildBackboneCurve phaseOffset).points[j]? = some b ∧
      a.y < b.y ∧
      b.y - a.y = ((j : ℝ) - (i : ℝ)) * (VERTICAL_STEP / 4) ∧
      0 < VERTICAL_STEP / 4 ∧
      (buildBackboneCurve phaseOffset).points[0]? = some lo ∧
      (buildBackboneCurve phaseOffset).points[4 * 20]? = some hi ∧
      lo.y = -(((BASE_PAIR_COUNT : ℝ) * VERTICAL_STEP) / 2) ∧
      hi.y = ((BASE_PAIR_COUNT : ℝ) * VERTICAL_STEP) / 2 := by
  have hij' : (i : ℝ) < (j : ℝ) := by exact_mod_cast hij
  refine ⟨backbonePoint phaseOffset i, backbonePoint phaseOffset j,
    backbonePoint phaseOffset 0, backbonePoint phaseOffset (4 * 20),
    buildBackboneCurve_points_getElem _ i (by omega),
    buildBackboneCurve_points_getElem _ j (by omega),
    ?_, ?_, by norm_num [VERTICAL_STEP],
    buildBackboneCurve_points_getElem _ 0 (by omega),
    buildBackboneCurve_points_getElem _ (4 * 20) (by omega),
    ?_, ?_⟩
  · show (i : ℝ) / 4 * VERTICAL_STEP - _ < (j : ℝ) / 4 * VERTICAL_STEP - _
    have hv : (0 : ℝ) < VERTICAL_STEP := by norm_num [VERTICAL_STEP]
    nlinarith [hij', hv]
  · show (j : ℝ) / 4 * VERTICAL_STEP - _ - ((i : ℝ) / 4 * VERTICAL_STEP - _) = _
    ring
  · show ((0 : ℕ) : ℝ) / 4 * VERTICAL_STEP - ((BASE_PAIR_COUNT : ℝ) * VERTICAL_STEP) / 2 = _
    norm_num
  · show ((4 * 20 : ℕ) : ℝ) / 4 * VERTICAL_STEP - ((BASE_PAIR_COUNT : ℝ) * VERTICAL_STEP) / 2 = _
    norm_num [BASE_PAIR_COUNT, VERTICAL_STEP]

/-- Witness for `curve_y_strictly_increasing` at phase offset `0`,
indices `0 < 1`. -/
theorem curve_y_strictly_increasing_witness :
    (0 < 1 ∧ 1 ≤ 4 * 20) ∧
    ∃ a b lo hi : Vec3,
      (buildBackboneCurve 0).points[0]? = some a ∧
      (buildBackboneCurve 0).points[1]? = some b ∧
      a.y < b.y ∧
      b.y - a.y = ((1 : ℕ) - ((0 : ℕ) : ℝ)) * (VERTICAL_STEP / 4) ∧
      0 < VERTICAL_STEP / 4 ∧
      (buildBackboneCurve 0).points[0]? = some lo ∧
      (buildBackboneCurve 0).points[4 * 20]? = some hi ∧
      lo.y = -(((BASE_PAIR_COUNT : ℝ) * VERTICAL_STEP) / 2) ∧
      hi.y = ((BASE_PAIR_COUNT : ℝ) * VERTICAL_STEP) / 2 :=
  ⟨⟨by norm_num, by norm_num⟩, curve_y_strictly_increasing 0 0 1 (by norm_num) (by norm_num)⟩

/-- **C7.** For every phase offset, the Curve Builder produces exactly
`4 * 20 + 1 = 81` control points. -/
theorem curve_builder_point_count (phaseOffset : ℝ) :
    (buildBackboneCurve phaseOffset).points.length = 4 * 20 + 1 := by
  simp [buildBackboneCurve, BASE_PAIR_COUNT]

/-- **C8.** Geometry generation is deterministic: two invocations of the
Curve Builder with the same phase offset yield identical curves (and in
particular identical point sequences); the output is a pure function of
the phase offset with no hidden state. -/
theorem curve_builder_deterministic (p q : ℝ) (h : p = q) :
    buildBackboneCurve p = buildBackboneCurve q ∧
    (buildBackboneCurve p).points = (buildBackboneCurve q).points := by
  rw [h]
  exact ⟨rfl, rfl⟩

/-- Witness for `curve_builder_deterministic` at phase offset `0`. -/
theorem curve_builder_deterministic_witness :
    (0 : ℝ) = 0 ∧ buildBackboneCurve 0 = buildBackboneCurve 0 ∧
      (buildBackboneCurve 0).points = (buildBackboneCurve 0).points :=
  ⟨rfl, curve_builder_deterministic 0 0 rfl⟩

/-- **C5.** The per-frame update sets `rotationY = t * 0.15` and
`positionY = sin(t * 0.5) * 0.15`; at `t = 0` both are `0`, at `t = π`
`positionY = 0.15` exactly, and `|positionY| ≤ 0.15` for every `t`.
The `FrameState` record has no other fields: nothing else varies. -/
theorem frame_update_spec :
    (∀ t : ℝ, (frameUpdate t).rotationY = t * 0.15 ∧
      (frameUpdate t).positionY = Real.sin (t * 0.5) * 0.15) ∧
    (frameUpdate 0).rotationY = 0 ∧ (frameUpdate 0).positionY = 0 ∧
    (frameUpdate π).positionY = 0.15 ∧
    (∀ t : ℝ, |(frameUpdate t).positionY| ≤ 0.15) := by
  refine ⟨fun t => ⟨rfl, rfl⟩, by simp [frameUpdate], by simp [frameUpdate], ?_, ?_⟩
  · show Real.sin (π * 0.5) * 0.15 = 0.15
    have h : π * 0.5 = π / 2 := by ring
    rw [h, Real.sin_pi_div_two, one_mul]
  · intro t
    show |Real.sin (t * 0.5) * 0.15| ≤ 0.15
    rw [abs_mul]
    have h1 : |Real.sin (t * 0.5)| ≤ 1 := Real.abs_sin_le_one _
    have h2 : |(0.15 : ℝ)| = 0.15 := by norm_num
    rw [h2]
    nlinarith

end DNAHelix
